import Mathlib

/-!
Verification of the dteg orchestration core (scheduler and orchestrator).

This file embeds, in Lean, the data model and the operations of
`src/dteg/orchestration/scheduler.py` and
`src/dteg/orchestration/orchestrator.py`:

* `ScheduleConfig`, `ExecutionRecord` and their (de)serialisation dicts;
* the `Scheduler` state (`schedules`, `running_executions`,
  `completed_executions`, and the schedule directory on disk);
* `add_schedule` / `remove_schedule` / `update_schedule` /
  `_save_schedules` / `_save_schedule` / `_load_schedules` /
  `_load_history` / `_check_dependencies` / `_run_pipeline` / `run_once`;
* `Orchestrator.add_pipeline_dependency`.

Modelling conventions:

* instants (`datetime`) are `Nat` (seconds); `datetime.now()` becomes an
  explicit `now : Nat` argument threaded to each operation;
* the external `croniter` library is abstracted as a `Cron` record:
  `Cron.next e t = none` models the `croniter` constructor raising on an
  invalid expression, `some u` models `get_next` returning `u`;
* `uuid.uuid4()` outputs are explicit `String` arguments;
* Python dicts are insertion-ordered association lists
  (`List (String × _)`); `d[k] = v` replaces in place or appends;
* the schedule directory is an association list from file name to parsed
  JSON content; history files are an association list from file name to
  the parsed execution dict;
* a Python exception is the `.error` branch of an `Except`; because the
  Python code mutates objects before an exception can escape, fallible
  operations return the post-exception state in their `.error` payload;
* writes to the optional web database (`_save_execution_record`'s DB
  branch, `_save_schedule`'s SQLite branch) do not touch scheduler state
  and are modelled as no-ops;
* the pipeline run itself (`Pipeline.run`, the DB lookup branch) is an
  opaque callable `runP : String → Except String Unit` keyed by the
  schedule's `pipeline_config` reference, mirroring §1 of the spec which
  treats "run a pipeline" as an opaque call returning success/failure.
-/

set_option autoImplicit false

namespace Dteg

/-! ### Association lists (Python `dict` with insertion order) -/

def lookup {α : Type} (k : String) : List (String × α) → Option α
  | [] => none
  | (k', v) :: rest => if k' = k then some v else lookup k rest

/-- `d[k] = v`: replace the value in place if the key exists, else append. -/
def insertPair {α : Type} (k : String) (v : α) : List (String × α) → List (String × α)
  | [] => [(k, v)]
  | (k', v') :: rest => if k' = k then (k, v) :: rest else (k', v') :: insertPair k v rest

/-- `del d[k]`: remove the first binding of `k`. -/
def erasePair {α : Type} (k : String) : List (String × α) → List (String × α)
  | [] => []
  | (k', v') :: rest => if k' = k then rest else (k', v') :: erasePair k rest

/-! ### The external cron library (croniter) -/

/-- Abstraction of the `croniter` library.  `next e t` is
`croniter(e, t).get_next()`; it is `none` when the expression is invalid
(the `croniter` constructor raises), `some u` otherwise.  `is_valid` is
`croniter.is_valid`. -/
structure Cron where
  is_valid : String → Bool
  next : String → Nat → Option Nat

/-! ### ScheduleConfig -/

/-- `ScheduleConfig` (scheduler.py lines 21-55).  The trailing
`last_run_time` / `last_run_status` / `next_run_time` fields are set
dynamically by `_run_pipeline` (lines 514-527); they start absent. -/
structure ScheduleConfig where
  id : String
  pipeline_config : String
  cron_expression : String
  enabled : Bool
  dependencies : List String
  max_retries : Nat
  retry_delay : Nat
  next_run : Nat
  last_run_time : Option Nat := none
  last_run_status : Option String := none
  next_run_time : Option Nat := none
  deriving DecidableEq

/-- `ScheduleConfig.__init__` (lines 24-55): stores the fields, computes
`next_run = croniter(cron_expression, now).get_next()` — which raises on
an invalid expression — then double-checks `croniter.is_valid` and raises
`ValueError` when invalid.  The generated `uuid4` is the explicit `id`
argument. -/
def ScheduleConfig.init (C : Cron) (now : Nat) (id pipeline_config cron_expression : String)
    (enabled : Bool) (dependencies : List String) (max_retries retry_delay : Nat) :
    Except String ScheduleConfig :=
  match C.next cron_expression now with
  | none => .error "invalid cron"
  | some nr =>
    if C.is_valid cron_expression then
      .ok { id := id, pipeline_config := pipeline_config, cron_expression := cron_expression,
            enabled := enabled, dependencies := dependencies, max_retries := max_retries,
            retry_delay := retry_delay, next_run := nr }
    else
      .error "invalid cron"

/-- The JSON object written for one schedule (`to_dict`, lines 79-94).
`to_dict` serialises exactly these eight keys; the dynamic
`last_run_*` / `next_run_time` attributes are not serialised. -/
structure ScheduleDict where
  id : String
  pipeline_config : String
  cron_expression : String
  enabled : Bool
  dependencies : List String
  max_retries : Nat
  retry_delay : Nat
  next_run : Option Nat
  deriving DecidableEq

def ScheduleConfig.to_dict (s : ScheduleConfig) : ScheduleDict :=
  { id := s.id, pipeline_config := s.pipeline_config, cron_expression := s.cron_expression,
    enabled := s.enabled, dependencies := s.dependencies, max_retries := s.max_retries,
    retry_delay := s.retry_delay, next_run := some s.next_run }

/-- `ScheduleConfig.from_dict` (lines 96-130): builds a fresh instance via
the constructor (validating the cron expression and computing a
provisional `next_run`), then restores `id` from the dict and `next_run`
from the dict when present, recomputing it otherwise.  `freshId` stands
for the `uuid4` the constructor draws before it is overwritten. -/
def ScheduleConfig.from_dict (C : Cron) (now : Nat) (freshId : String) (d : ScheduleDict) :
    Except String ScheduleConfig :=
  match ScheduleConfig.init C now freshId d.pipeline_config d.cron_expression d.enabled
      d.dependencies d.max_retries d.retry_delay with
  | .error e => .error e
  | .ok inst =>
    let inst := { inst with id := d.id }
    match d.next_run with
    | some t => .ok { inst with next_run := t }
    | none =>
      match C.next inst.cron_expression now with
      | some t => .ok { inst with next_run := t }
      | none => .error "invalid cron"

/-! ### ExecutionRecord -/

/-- `ExecutionRecord` (lines 133-152). -/
structure ExecutionRecord where
  id : String
  schedule_id : String
  pipeline_id : String
  start_time : Nat
  end_time : Option Nat
  status : String
  retry_count : Nat
  error_message : Option String
  logs : List String
  deriving DecidableEq

/-- `ExecutionRecord.__init__` (lines 136-152); `id` is the `uuid4`. -/
def ExecutionRecord.init (id schedule_id pipeline_id : String) (now : Nat) : ExecutionRecord :=
  { id := id, schedule_id := schedule_id, pipeline_id := pipeline_id, start_time := now,
    end_time := none, status := "RUNNING", retry_count := 0, error_message := none, logs := [] }

/-- `ExecutionRecord.complete` (lines 154-164). -/
def ExecutionRecord.complete (r : ExecutionRecord) (now : Nat) (success : Bool)
    (error_message : Option String) : ExecutionRecord :=
  { r with end_time := some now,
           status := if success then "SUCCESS" else "FAILED",
           error_message := error_message }

/-- `ExecutionRecord.retry` (lines 166-175).  (Defined in the source but
never invoked by the scheduler.) -/
def ExecutionRecord.retry (r : ExecutionRecord) (error_message : String) : ExecutionRecord :=
  { r with retry_count := r.retry_count + 1, status := "RETRYING",
           error_message := some error_message }

/-- The JSON object of one persisted execution record (`to_dict`,
lines 177-189 / the shape read back by `_load_history`). -/
structure ExecDict where
  id : String
  schedule_id : String
  pipeline_id : String
  start_time : Nat
  end_time : Option Nat
  status : String
  retry_count : Nat
  error_message : Option String
  logs : List String
  deriving DecidableEq

/-- One iteration of `_load_history` (lines 744-752): a fresh record is
built and every field is overwritten from the file; `end_time` is set
only when the stored value is non-null, so it stays `none` otherwise.
No field is validated. -/
def loadHistoryRecord (d : ExecDict) : ExecutionRecord :=
  { id := d.id, schedule_id := d.schedule_id, pipeline_id := d.pipeline_id,
    start_time := d.start_time, end_time := d.end_time, status := d.status,
    retry_count := d.retry_count, error_message := d.error_message, logs := d.logs }

/-! ### Scheduler state and persistence -/

/-- Parsed content of a file in the schedule directory: either the JSON
of a single schedule (what `_save_schedules` writes into `<id>.json`) or
a mapping id → schedule dict (what `_load_schedules` expects to find in
`schedules.json`). -/
inductive FileContent where
  | single (d : ScheduleDict)
  | index (entries : List (String × ScheduleDict))
  deriving DecidableEq

/-- In-memory scheduler state plus the schedule directory
(`Scheduler.__init__`, lines 195-226). -/
structure SchedState where
  schedules : List (String × ScheduleConfig)
  running_executions : List (String × ExecutionRecord)
  completed_executions : List ExecutionRecord
  schedule_dir : List (String × FileContent)
  deriving DecidableEq

/-- Write one schedule's `<id>.json` file into a directory. -/
def schedFileWrite (dir : List (String × FileContent)) (kv : String × ScheduleConfig) :
    List (String × FileContent) :=
  insertPair (kv.2.id ++ ".json") (FileContent.single kv.2.to_dict) dir

/-- `_save_schedules` (lines 640-656): writes one `<id>.json` file per
schedule, containing `to_dict`.  It deletes nothing. -/
def saveSchedules (st : SchedState) : SchedState :=
  { st with schedule_dir := st.schedules.foldl schedFileWrite st.schedule_dir }

/-- `_save_schedule` (lines 658-712): writes `<id>.json` for one schedule
and refreshes the in-memory entry; the SQLite branch is external. -/
def saveScheduleFile (st : SchedState) (s : ScheduleConfig) : SchedState :=
  { st with
      schedule_dir := insertPair (s.id ++ ".json") (.single s.to_dict) st.schedule_dir,
      schedules := insertPair s.id s st.schedules }

/-- `add_schedule` (lines 228-242). -/
def addSchedule (st : SchedState) (s : ScheduleConfig) : SchedState × String :=
  (saveSchedules { st with schedules := insertPair s.id s st.schedules }, s.id)

/-- `remove_schedule` (lines 244-260). -/
def removeSchedule (st : SchedState) (schedule_id : String) : SchedState × Bool :=
  if (lookup schedule_id st.schedules).isSome then
    (saveSchedules { st with schedules := erasePair schedule_id st.schedules }, true)
  else
    (st, false)

/-- `get_all_schedules` (lines 266-268). -/
def getAllSchedules (st : SchedState) : List ScheduleConfig :=
  st.schedules.map Prod.snd

/-- The keyword arguments `update_schedule` is invoked with (every
caller passes a subset of these attributes, all of which exist on
`ScheduleConfig`, so the `hasattr` guard always passes). -/
structure UpdateArgs where
  enabled : Option Bool := none
  cron_expression : Option String := none
  dependencies : Option (List String) := none
  max_retries : Option Nat := none

/-- The `setattr` loop of `update_schedule` (lines 285-287). -/
def applyArgs (s : ScheduleConfig) (a : UpdateArgs) : ScheduleConfig :=
  let s := match a.enabled with | some b => { s with enabled := b } | none => s
  let s := match a.cron_expression with | some e => { s with cron_expression := e } | none => s
  let s := match a.dependencies with | some d => { s with dependencies := d } | none => s
  match a.max_retries with | some m => { s with max_retries := m } | none => s

/-- `update_schedule` (lines 270-296): mutates the stored object with
`setattr` first; when `cron_expression` was passed, recomputes `next_run`
via `update_next_run`, which raises on an invalid expression — after the
attribute has already been mutated.  On success everything is saved. -/
def updateSchedule (C : Cron) (now : Nat) (st : SchedState) (schedule_id : String)
    (args : UpdateArgs) : Except (String × SchedState) (SchedState × Bool) :=
  match lookup schedule_id st.schedules with
  | none => .ok (st, false)
  | some s =>
    let s1 := applyArgs s args
    let st1 := { st with schedules := insertPair schedule_id s1 st.schedules }
    if args.cron_expression.isSome then
      match C.next s1.cron_expression now with
      | none => .error ("invalid cron", st1)
      | some nr =>
        let sched2 := insertPair schedule_id { s1 with next_run := nr } st.schedules
        let st2 := { st with schedules := sched2 }
        .ok (saveSchedules st2, true)
    else
      .ok (saveSchedules st1, true)

/-- The loop of `_load_schedules` (lines 725-727): entries are restored
one by one; an exception aborts the loop (the surrounding `try` logs it),
keeping the schedules restored so far. -/
def loadSchedulesFrom (C : Cron) (now : Nat) (freshId : String) :
    List (String × ScheduleDict) → List (String × ScheduleConfig) →
    List (String × ScheduleConfig)
  | [], acc => acc
  | (sid, d) :: rest, acc =>
    match ScheduleConfig.from_dict C now freshId d with
    | .ok s => loadSchedulesFrom C now freshId rest (insertPair sid s acc)
    | .error _ => acc

/-- `_load_schedules` (lines 714-731): reads only `schedules.json`.  When
that file is absent nothing is loaded; when its content is not a mapping
of schedule dicts the parse raises and nothing is loaded. -/
def loadSchedules (C : Cron) (now : Nat) (freshId : String)
    (dir : List (String × FileContent)) : List (String × ScheduleConfig) :=
  match lookup "schedules.json" dir with
  | none => []
  | some (.index entries) => loadSchedulesFrom C now freshId entries []
  | some (.single _) => []

/-- `_load_history` (lines 733-758): every parseable history file is
restored and appended. -/
def loadHistory (files : List (String × ExecDict)) : List ExecutionRecord :=
  files.foldl (fun acc kv => acc ++ [loadHistoryRecord kv.2]) []

/-- `Scheduler.__init__` (lines 195-226) over a given directory state:
loads the history and the schedules. -/
def schedulerInit (C : Cron) (now : Nat) (freshId : String)
    (history_files : List (String × ExecDict)) (dir : List (String × FileContent)) :
    SchedState :=
  { schedules := loadSchedules C now freshId dir
    running_executions := []
    completed_executions := loadHistory history_files
    schedule_dir := dir }

/-! ### Dependency gate, pipeline run, tick -/

/-- `_check_dependencies` (lines 348-374): for each dependency id the
reversed completed-executions list is scanned for a record of that
pipeline with status SUCCESS. -/
def checkDependencies (st : SchedState) (schedule : ScheduleConfig) : Bool :=
  if schedule.dependencies.isEmpty then
    true
  else
    schedule.dependencies.all fun dep_id =>
      st.completed_executions.reverse.any fun r =>
        r.pipeline_id == dep_id && r.status == "SUCCESS"

/-- The record as first registered in `running_executions`
(lines 407-412): freshly initialised, with the start log lines.  The
pipeline id is extracted from the schedule's `pipeline_config`
reference (lines 389-405). -/
def startedRecord (recId : String) (schedule : ScheduleConfig) (now : Nat) : ExecutionRecord :=
  let r := ExecutionRecord.init recId schedule.id schedule.pipeline_config now
  { r with logs := r.logs ++ ["start"] }

/-- The inner `try/except` of `_run_pipeline` (lines 429-498): runs the
pipeline and completes the record — SUCCESS on a normal return, FAILED
with the error message on an exception, which is not re-raised.  Returns
the completed record and the `success` flag. -/
def runRecord (runP : String → Except String Unit) (now : Nat) (recId : String)
    (schedule : ScheduleConfig) : ExecutionRecord × Bool :=
  let record := startedRecord recId schedule now
  match runP schedule.pipeline_config with
  | .ok _ =>
    (ExecutionRecord.complete { record with logs := record.logs ++ ["completed"] } now true none,
     true)
  | .error e =>
    (ExecutionRecord.complete { record with logs := record.logs ++ ["error"] } now false
      (some ("error: " ++ e)),
     false)

/-- The `on_execution_complete` callback invocation (lines 510-511),
which may raise. -/
def callbackResult (onComplete : Option (ExecutionRecord → Except String Unit))
    (r : ExecutionRecord) : Except String Unit :=
  match onComplete with
  | some cb => cb r
  | none => .ok ()

/-- The schedule mutations of lines 514-529: `last_run_time`,
`last_run_status` and `next_run_time` are set (the same way on success
and on failure, apart from the status string). -/
def completedSchedule (success : Bool) (now : Nat) (nrt : Option Nat)
    (schedule : ScheduleConfig) : ScheduleConfig :=
  { schedule with
      last_run_time := some now,
      last_run_status := some (if success then "SUCCESS" else "FAILED"),
      next_run_time := nrt }

/-- The body of `_run_pipeline` (lines 376-534), i.e. everything inside
the outer `try`.  `runP` is the opaque pipeline run; `onComplete` the
optional completion callback, which may itself raise.  The inner
`try/except` (lines 429-498) converts a pipeline failure into
`record.complete(success=False, error_message=...)` without re-raising;
the callback and `get_next_run_time` (which raises on an invalid cron
expression, and yields `None` for a disabled schedule) may raise out of
the body. -/
def runPipelineBody (C : Cron) (runP : String → Except String Unit)
    (onComplete : Option (ExecutionRecord → Except String Unit))
    (now : Nat) (recId : String) (st : SchedState) (schedule : ScheduleConfig) :
    Except (String × SchedState × ScheduleConfig) (SchedState × ScheduleConfig × Bool) :=
  let record0 := startedRecord recId schedule now
  let st1 := { st with running_executions := insertPair record0.id record0 st.running_executions }
  let rb := runRecord runP now recId schedule
  let st2 := { st1 with running_executions := insertPair rb.1.id rb.1 st1.running_executions }
  match callbackResult onComplete rb.1 with
  | .error e => .error (e, st2, schedule)
  | .ok _ =>
    if schedule.enabled then
      match C.next schedule.cron_expression now with
      | none => .error ("invalid cron", st2, schedule)
      | some nrt =>
        let schedule2 := completedSchedule rb.2 now (some nrt) schedule
        .ok (saveScheduleFile st2 schedule2, schedule2, rb.2)
    else
      let schedule2 := completedSchedule rb.2 now none schedule
      .ok (saveScheduleFile st2 schedule2, schedule2, rb.2)

/-- `_run_pipeline` (lines 376-537): the outer `try/except` swallows any
exception and returns `False`; the schedule object (aliased by the
caller) keeps the mutations made up to the exception. -/
def runPipeline (C : Cron) (runP : String → Except String Unit)
    (onComplete : Option (ExecutionRecord → Except String Unit))
    (now : Nat) (recId : String) (st : SchedState) (schedule : ScheduleConfig) :
    SchedState × ScheduleConfig × Bool :=
  match runPipelineBody C runP onComplete now recId st schedule with
  | .ok res => res
  | .error (_, st', schedule') => (st', schedule', false)

/-- One iteration of the `run_once` loop (lines 309-342), for the
schedule under key `sid`; returns the new state and `some sid` when the
pipeline was dispatched.  The whole body sits in a per-schedule
`try/except … continue`, so an exception from `update_next_run` leaves
the state as it stands and moves on. -/
def runOnceStep (C : Cron) (runP : String → Except String Unit)
    (onComplete : Option (ExecutionRecord → Except String Unit))
    (now : Nat) (recId : String) (st : SchedState) (sid : String) :
    SchedState × Option String :=
  match lookup sid st.schedules with
  | none => (st, none)
  | some schedule =>
    if !schedule.enabled then
      (st, none)
    else if schedule.next_run ≤ now then
      if checkDependencies st schedule then
        let r := runPipeline C runP onComplete now recId st schedule
        let st1 := r.1
        let schedule1 := r.2.1
        match C.next schedule1.cron_expression now with
        | none => (st1, some sid)
        | some nr =>
          let sched2 := insertPair sid { schedule1 with next_run := nr } st1.schedules
          let st2 := { st1 with schedules := sched2 }
          (saveSchedules st2, some sid)
      else
        (st, none)
    else
      (st, none)

/-- The `run_once` loop over a snapshot of the keys
(`list(self.schedules.items())`, line 309), with fresh record ids drawn
from `fresh`.  Also returns the ids whose pipeline was dispatched, in
processing order. -/
def runOnceAux (C : Cron) (runP : String → Except String Unit)
    (onComplete : Option (ExecutionRecord → Except String Unit))
    (now : Nat) (fresh : Nat → String) :
    List String → Nat → SchedState → SchedState × List String
  | [], _, st => (st, [])
  | sid :: rest, i, st =>
    let r := runOnceStep C runP onComplete now (fresh i) st sid
    let r2 := runOnceAux C runP onComplete now fresh rest (i + 1) r.1
    (r2.1, (match r.2 with | some s => [s] | none => []) ++ r2.2)

/-- `run_once` (lines 298-346). -/
def runOnce (C : Cron) (runP : String → Except String Unit)
    (onComplete : Option (ExecutionRecord → Except String Unit))
    (now : Nat) (fresh : Nat → String) (st : SchedState) : SchedState × List String :=
  runOnceAux C runP onComplete now fresh (st.schedules.map Prod.fst) 0 st

/-- `Orchestrator.add_pipeline_dependency` (orchestrator.py lines
419-452): rejects unknown schedule ids and duplicate dependencies, then
appends the dependency via `update_schedule`. -/
def addPipelineDependency (C : Cron) (now : Nat) (st : SchedState)
    (schedule_id dependency_id : String) :
    Except (String × SchedState) (SchedState × Bool) :=
  match lookup schedule_id st.schedules with
  | none => .ok (st, false)
  | some schedule =>
    match lookup dependency_id st.schedules with
    | none => .ok (st, false)
    | some _ =>
      if schedule.dependencies.contains dependency_id then
        .ok (st, false)
      else
        updateSchedule C now st schedule_id
          { dependencies := some (schedule.dependencies ++ [dependency_id]) }

/-! ### Spec-side definitions, for refinement comparisons -/

def isTerminalStatus (s : String) : Bool :=
  s == "SUCCESS" || s == "FAILED" || s == "CANCELLED"

/-- Modelled from the spec (§4.7.2): `dependencies_satisfied` holds iff
for every dependency id the LATEST terminal record of that pipeline has
status SUCCESS; when no terminal record exists the dependency is not
satisfied.  This is the policy the claim states; it is compared against
the source's `checkDependencies`. -/
def specDependencyGate (execs : List ExecutionRecord) (schedule : ScheduleConfig) : Bool :=
  schedule.dependencies.all fun dep_id =>
    match execs.reverse.find? (fun r => r.pipeline_id == dep_id && isTerminalStatus r.status) with
    | some r => r.status == "SUCCESS"
    | none => false

/-- Lexicographic strict order on char lists. -/
def charListLt : List Char → List Char → Bool
  | [], [] => false
  | [], _ :: _ => true
  | _ :: _, [] => false
  | c :: cs, d :: ds =>
    if c.val < d.val then true
    else if d.val < c.val then false
    else charListLt cs ds

/-- Lexicographic strict order on strings. -/
def strLt (a b : String) : Bool := charListLt a.data b.data

/-- Modelled from the spec (§4.7.1): "schedules are processed in
deterministic id order" — the dispatch trace must be ascending in the
ids. -/
def idOrderedB : List String → Bool
  | [] => true
  | [_] => true
  | x :: y :: rest => strLt x y && idOrderedB (y :: rest)

/-! ### Observations used to state the theorems -/

/-- The schedule under `sid` is enabled, due at `now`, and its
dependency gate is satisfied — exactly the condition under which
`run_once` dispatches it. -/
def firesAt (now : Nat) (st : SchedState) (sid : String) : Bool :=
  match lookup sid st.schedules with
  | some s => s.enabled && decide (s.next_run ≤ now) && checkDependencies st s
  | none => false

/-- The due-and-satisfied schedule ids, in the insertion order of the
schedules map. -/
def firedIds (now : Nat) (st : SchedState) : List String :=
  (st.schedules.map Prod.fst).filter (firesAt now st)

/-- Well-formedness of a scheduler state: every map entry's key is the
schedule's own id, and the keys are distinct — exactly what
`add_schedule` / `_save_schedule` maintain (both key the map by
`schedule.id`). -/
def WF (st : SchedState) : Prop :=
  (∀ p ∈ st.schedules, p.2.id = p.1) ∧ (st.schedules.map Prod.fst).Nodup

/-- Projection: the state carried by a raised exception. -/
def errState {β : Type} : Except (String × SchedState) β → Option SchedState
  | .error (_, st) => some st
  | .ok _ => none

/-- Projection: the state of a normal return. -/
def okState {β : Type} : Except (String × SchedState) (SchedState × β) → Option SchedState
  | .ok (st, _) => some st
  | .error _ => none

/-- Projection: the boolean result of a normal return. -/
def okFlag {β : Type} : Except (String × SchedState) (SchedState × β) → Option β
  | .ok (_, b) => some b
  | .error _ => none

/-! ### Concrete inputs used by the closed theorems -/

/-- A concrete stand-in for the croniter library: three expressions are
valid and always fire 60 seconds after the base instant; everything else
is invalid. -/
def demoCron : Cron :=
  { is_valid := fun e => e == "* * * * *" || e == "0 8 * * *" || e == "0 12 * * *"
    next := fun e t =>
      if e == "* * * * *" || e == "0 8 * * *" || e == "0 12 * * *" then some (t + 60)
      else none }

def demoSchedule : ScheduleConfig :=
  { id := "s1", pipeline_config := "p1", cron_expression := "0 8 * * *", enabled := true,
    dependencies := [], max_retries := 3, retry_delay := 300, next_run := 1060 }

def emptyState : SchedState :=
  { schedules := [], running_executions := [], completed_executions := [], schedule_dir := [] }

/-- A state holding just `demoSchedule` under its own id. -/
def oneState : SchedState :=
  { schedules := [("s1", demoSchedule)], running_executions := [],
    completed_executions := [], schedule_dir := [] }

/-- An old SUCCESS record for pipeline `dep1`. -/
def depSuccessRecord : ExecutionRecord :=
  { id := "e1", schedule_id := "sA", pipeline_id := "dep1", start_time := 100,
    end_time := some 110, status := "SUCCESS", retry_count := 0, error_message := none,
    logs := [] }

/-- A newer FAILED record for pipeline `dep1`: the latest terminal record. -/
def depFailedRecord : ExecutionRecord :=
  { id := "e2", schedule_id := "sA", pipeline_id := "dep1", start_time := 200,
    end_time := some 210, status := "FAILED", retry_count := 0,
    error_message := some "boom", logs := [] }

/-- A schedule depending on pipeline `dep1`. -/
def depSchedule : ScheduleConfig :=
  { id := "s2", pipeline_config := "p2", cron_expression := "0 8 * * *", enabled := true,
    dependencies := ["dep1"], max_retries := 3, retry_delay := 300, next_run := 1060 }

def gateState : SchedState :=
  { schedules := [("s2", depSchedule)], running_executions := [],
    completed_executions := [depSuccessRecord, depFailedRecord], schedule_dir := [] }

/-- A history file whose record is terminal yet has a null `end_time`. -/
def badHistoryDict : ExecDict :=
  { id := "e9", schedule_id := "s9", pipeline_id := "p9", start_time := 500,
    end_time := none, status := "SUCCESS", retry_count := 0, error_message := none,
    logs := [] }

def schedA : ScheduleConfig :=
  { id := "a", pipeline_config := "pa", cron_expression := "* * * * *", enabled := true,
    dependencies := [], max_retries := 3, retry_delay := 300, next_run := 100 }

def schedB : ScheduleConfig :=
  { id := "b", pipeline_config := "pb", cron_expression := "* * * * *", enabled := true,
    dependencies := [], max_retries := 3, retry_delay := 300, next_run := 100 }

/-- Two due schedules inserted in the order `b`, then `a`. -/
def orderState : SchedState :=
  { schedules := [("b", schedB), ("a", schedA)], running_executions := [],
    completed_executions := [], schedule_dir := [] }

/-! ### Association-list lemmas -/

theorem lookup_insertPair_self {α : Type} (k : String) (v : α) (l : List (String × α)) :
    lookup k (insertPair k v l) = some v := by
  induction l with
  | nil => simp [insertPair, lookup]
  | cons p rest ih =>
    obtain ⟨k', v'⟩ := p
    by_cases h : k' = k
    · simp [insertPair, h, lookup]
    · simp [insertPair, h, lookup, ih]

theorem lookup_insertPair_ne {α : Type} (k k' : String) (v : α) (l : List (String × α))
    (h : k' ≠ k) : lookup k (insertPair k' v l) = lookup k l := by
  induction l with
  | nil => simp [insertPair, lookup, h]
  | cons p rest ih =>
    obtain ⟨k'', v''⟩ := p
    by_cases h2 : k'' = k'
    · subst h2
      simp [insertPair, lookup, h]
    · by_cases h3 : k'' = k
      · simp [insertPair, lookup, h2, h3, Ne.symm h]
      · simp [insertPair, lookup, h2, h3, ih]

theorem insertPair_insertPair {α : Type} (k : String) (v w : α) (l : List (String × α)) :
    insertPair k v (insertPair k w l) = insertPair k v l := by
  induction l with
  | nil => simp [insertPair]
  | cons p rest ih =>
    obtain ⟨k', v'⟩ := p
    by_cases h : k' = k
    · simp [insertPair, h]
    · simp [insertPair, h, ih]

theorem lookup_mem {α : Type} {k : String} {v : α} {l : List (String × α)}
    (h : lookup k l = some v) : (k, v) ∈ l := by
  induction l with
  | nil => simp [lookup] at h
  | cons p rest ih =>
    obtain ⟨k', v'⟩ := p
    by_cases h2 : k' = k
    · simp [lookup, h2] at h
      subst h2
      subst h
      exact List.mem_cons_self _ _
    · simp [lookup, h2] at h
      exact List.mem_cons_of_mem _ (ih h)

theorem mem_insertPair {α : Type} {p : String × α} {k : String} {v : α}
    {l : List (String × α)} (h : p ∈ insertPair k v l) : p = (k, v) ∨ p ∈ l := by
  induction l with
  | nil =>
    simp [insertPair] at h
    exact Or.inl h
  | cons q rest ih =>
    obtain ⟨k', v'⟩ := q
    by_cases h2 : k' = k
    · simp [insertPair, h2] at h
      rcases h with h | h
      · exact Or.inl h
      · exact Or.inr (List.mem_cons_of_mem _ h)
    · simp [insertPair, h2] at h
      rcases h with h | h
      · exact Or.inr (by simp [h])
      · rcases ih h with h3 | h3
        · exact Or.inl h3
        · exact Or.inr (List.mem_cons_of_mem _ h3)

theorem keys_insertPair_nodup {α : Type} (k : String) (v : α) (l : List (String × α))
    (h : (l.map Prod.fst).Nodup) : ((insertPair k v l).map Prod.fst).Nodup := by
  induction l with
  | nil => simp [insertPair]
  | cons p rest ih =>
    obtain ⟨k', v'⟩ := p
    rw [List.map_cons, List.nodup_cons] at h
    by_cases h2 : k' = k
    · subst h2
      have he : insertPair k' v ((k', v') :: rest) = (k', v) :: rest := by simp [insertPair]
      rw [he, List.map_cons, List.nodup_cons]
      exact h
    · simp only [insertPair, if_neg h2, List.map_cons, List.nodup_cons]
      refine ⟨?_, ih h.2⟩
      intro hmem
      rw [List.mem_map] at hmem
      obtain ⟨q, hq, hq1⟩ := hmem
      rcases mem_insertPair hq with h3 | h3
      · rw [h3] at hq1
        exact h2 hq1.symm
      · exact h.1 (List.mem_map.mpr ⟨q, h3, hq1⟩)

theorem string_append_json_inj {a b : String} (h : a ++ ".json" = b ++ ".json") : a = b := by
  have hd := congrArg String.data h
  simp only [String.data_append] at hd
  exact String.ext (List.append_cancel_right hd)

/-! ### Structural lemmas about `_save_schedules` -/

theorem saveSchedules_schedules (st : SchedState) :
    (saveSchedules st).schedules = st.schedules := rfl

theorem saveSchedules_completed (st : SchedState) :
    (saveSchedules st).completed_executions = st.completed_executions := rfl

theorem lookup_foldl_write_ne (name : String) :
    ∀ (l : List (String × ScheduleConfig)) (dir : List (String × FileContent)),
      (∀ p ∈ l, p.2.id ++ ".json" ≠ name) →
      lookup name (l.foldl schedFileWrite dir) = lookup name dir := by
  intro l
  induction l with
  | nil => intro dir _; rfl
  | cons p rest ih =>
    intro dir h
    rw [List.foldl_cons, ih _ (fun q hq => h q (List.mem_cons_of_mem _ hq))]
    exact lookup_insertPair_ne _ _ _ _ (h p (List.mem_cons_self _ _))

theorem lookup_foldl_write (l : List (String × ScheduleConfig)) :
    ∀ (dir : List (String × FileContent)) (sid : String) (s : ScheduleConfig),
      (∀ p ∈ l, p.2.id = p.1) → (l.map Prod.fst).Nodup →
      lookup sid l = some s →
      lookup (sid ++ ".json") (l.foldl schedFileWrite dir)
        = some (FileContent.single s.to_dict) := by
  induction l with
  | nil => intro dir sid s _ _ h; simp [lookup] at h
  | cons p rest ih =>
    intro dir sid s hid hnd hl
    obtain ⟨k, v⟩ := p
    rw [List.foldl_cons]
    rw [List.map_cons, List.nodup_cons] at hnd
    by_cases hk : k = sid
    · subst hk
      simp only [lookup, if_pos rfl] at hl
      have hv : v = s := Option.some.inj hl
      subst hv
      rw [lookup_foldl_write_ne]
      · have hv_id : v.id = k := hid (k, v) (List.mem_cons_self _ _)
        show lookup (k ++ ".json")
            (insertPair (v.id ++ ".json") (FileContent.single v.to_dict) dir) = _
        rw [hv_id]
        exact lookup_insertPair_self _ _ _
      · intro q hq heq
        have hq_id : q.2.id = q.1 := hid q (List.mem_cons_of_mem _ hq)
        have hq1 : q.1 = k := by rw [← hq_id]; exact string_append_json_inj heq
        exact hnd.1 (by rw [← hq1]; exact List.mem_map.mpr ⟨q, hq, rfl⟩)
    · simp only [lookup, if_neg hk] at hl
      exact ih _ sid s (fun q hq => hid q (List.mem_cons_of_mem _ hq)) hnd.2 hl

theorem saveSchedules_file (st : SchedState)
    (hid : ∀ p ∈ st.schedules, p.2.id = p.1)
    (hnd : (st.schedules.map Prod.fst).Nodup)
    (sid : String) (s : ScheduleConfig) (h : lookup sid st.schedules = some s) :
    lookup (sid ++ ".json") (saveSchedules st).schedule_dir
      = some (FileContent.single s.to_dict) :=
  lookup_foldl_write st.schedules st.schedule_dir sid s hid hnd h

/-! ### Structural lemmas about `_run_pipeline` -/

theorem runRecord_id (runP : String → Except String Unit) (now : Nat) (recId : String)
    (schedule : ScheduleConfig) : (runRecord runP now recId schedule).1.id = recId := by
  unfold runRecord startedRecord
  cases runP schedule.pipeline_config <;> rfl

theorem runRecord_failed (runP : String → Except String Unit) (now : Nat) (recId : String)
    (schedule : ScheduleConfig) (e : String)
    (h : runP schedule.pipeline_config = .error e) :
    (runRecord runP now recId schedule).1.status = "FAILED" ∧
    (runRecord runP now recId schedule).1.error_message = some ("error: " ++ e) ∧
    (runRecord runP now recId schedule).1.end_time = some now ∧
    (runRecord runP now recId schedule).2 = false := by
  unfold runRecord
  rw [h]
  exact ⟨rfl, rfl, rfl, rfl⟩

theorem runPipelineBody_shape (C : Cron) (runP : String → Except String Unit)
    (onComplete : Option (ExecutionRecord → Except String Unit))
    (now : Nat) (recId : String) (st : SchedState) (schedule : ScheduleConfig) :
    (∃ st2 sch ok, runPipelineBody C runP onComplete now recId st schedule = .ok (st2, sch, ok) ∧
      st2.completed_executions = st.completed_executions ∧
      sch.id = schedule.id ∧ sch.cron_expression = schedule.cron_expression ∧
      st2.schedules = insertPair schedule.id sch st.schedules) ∨
    (∃ e st2 sch, runPipelineBody C runP onComplete now recId st schedule = .error (e, st2, sch) ∧
      st2.completed_executions = st.completed_executions ∧
      sch.id = schedule.id ∧ sch.cron_expression = schedule.cron_expression ∧
      st2.schedules = st.schedules) := by
  simp only [runPipelineBody]
  cases hcb : callbackResult onComplete (runRecord runP now recId schedule).1 with
  | error e => exact Or.inr ⟨e, _, _, rfl, rfl, rfl, rfl, rfl⟩
  | ok u =>
    by_cases he : schedule.enabled
    · simp only [he, if_true]
      cases hn : C.next schedule.cron_expression now with
      | none => exact Or.inr ⟨_, _, _, rfl, rfl, rfl, rfl, rfl⟩
      | some nrt => exact Or.inl ⟨_, _, _, rfl, rfl, rfl, rfl, rfl⟩
    · simp only [Bool.not_eq_true] at he
      simp only [he, Bool.false_eq_true, if_false]
      exact Or.inl ⟨_, _, _, rfl, rfl, rfl, rfl, rfl⟩

theorem runPipeline_spec (C : Cron) (runP : String → Except String Unit)
    (onComplete : Option (ExecutionRecord → Except String Unit))
    (now : Nat) (recId : String) (st : SchedState) (schedule : ScheduleConfig) :
    (runPipeline C runP onComplete now recId st schedule).1.completed_executions
        = st.completed_executions ∧
    (runPipeline C runP onComplete now recId st schedule).2.1.id = schedule.id ∧
    (runPipeline C runP onComplete now recId st schedule).2.1.cron_expression
        = schedule.cron_expression ∧
    ((runPipeline C runP onComplete now recId st schedule).1.schedules = st.schedules ∨
      (runPipeline C runP onComplete now recId st schedule).1.schedules
        = insertPair schedule.id (runPipeline C runP onComplete now recId st schedule).2.1
            st.schedules) := by
  unfold runPipeline
  rcases runPipelineBody_shape C runP onComplete now recId st schedule with
    ⟨st2, sch, ok, heq, hc, hi, hcr, hsch⟩ | ⟨e, st2, sch, heq, hc, hi, hcr, hsch⟩ <;> rw [heq]
  · exact ⟨hc, hi, hcr, Or.inr hsch⟩
  · exact ⟨hc, hi, hcr, Or.inl hsch⟩

theorem runPipelineBody_running (C : Cron) (runP : String → Except String Unit)
    (onComplete : Option (ExecutionRecord → Except String Unit))
    (now : Nat) (recId : String) (st : SchedState) (schedule : ScheduleConfig) :
    lookup recId (runPipeline C runP onComplete now recId st schedule).1.running_executions
      = some (runRecord runP now recId schedule).1 := by
  have hkey : (runRecord runP now recId schedule).1.id = recId := runRecord_id _ _ _ _
  unfold runPipeline
  simp only [runPipelineBody]
  cases hcb : callbackResult onComplete (runRecord runP now recId schedule).1 with
  | error e =>
    show lookup recId (insertPair (runRecord runP now recId schedule).1.id _ _) = _
    rw [hkey]
    exact lookup_insertPair_self _ _ _
  | ok u =>
    by_cases he : schedule.enabled
    · simp only [he, if_true]
      cases hn : C.next schedule.cron_expression now with
      | none =>
        show lookup recId (insertPair (runRecord runP now recId schedule).1.id _ _) = _
        rw [hkey]
        exact lookup_insertPair_self _ _ _
      | some nrt =>
        show lookup recId (insertPair (runRecord runP now recId schedule).1.id _ _) = _
        rw [hkey]
        exact lookup_insertPair_self _ _ _
    · simp only [Bool.not_eq_true] at he
      simp only [he, Bool.false_eq_true, if_false]
      show lookup recId (insertPair (runRecord runP now recId schedule).1.id _ _) = _
      rw [hkey]
      exact lookup_insertPair_self _ _ _

theorem runOnceStep_completed (C : Cron) (runP : String → Except String Unit)
    (onComplete : Option (ExecutionRecord → Except String Unit))
    (now : Nat) (recId : String) (st : SchedState) (sid : String) :
    (runOnceStep C runP onComplete now recId st sid).1.completed_executions
      = st.completed_executions := by
  unfold runOnceStep
  cases hl : lookup sid st.schedules with
  | none => rfl
  | some s =>
    by_cases he : s.enabled
    · simp only [he, Bool.not_true, Bool.false_eq_true, if_false]
      by_cases hd : s.next_run ≤ now
      · simp only [if_pos hd]
        by_cases hg : checkDependencies st s
        · simp only [hg, if_true]
          cases hn : C.next (runPipeline C runP onComplete now recId st s).2.1.cron_expression now with
          | none => exact (runPipeline_spec C runP onComplete now recId st s).1
          | some nr => exact (runPipeline_spec C runP onComplete now recId st s).1
        · simp only [Bool.not_eq_true] at hg
          simp only [hg, Bool.false_eq_true, if_false]
      · simp only [if_neg hd]
    · simp only [Bool.not_eq_true] at he
      simp only [he, Bool.not_false, if_true]

theorem runOnceStep_lookup_ne (C : Cron) (runP : String → Except String Unit)
    (onComplete : Option (ExecutionRecord → Except String Unit))
    (now : Nat) (recId : String) (st : SchedState) (sid k : String)
    (hk : k ≠ sid)
    (hid : ∀ s : ScheduleConfig, lookup sid st.schedules = some s → s.id = sid) :
    lookup k (runOnceStep C runP onComplete now recId st sid).1.schedules
      = lookup k st.schedules := by
  unfold runOnceStep
  cases hl : lookup sid st.schedules with
  | none => rfl
  | some s =>
    have hsid : s.id = sid := hid s hl
    have hrp : lookup k (runPipeline C runP onComplete now recId st s).1.schedules
        = lookup k st.schedules := by
      rcases (runPipeline_spec C runP onComplete now recId st s).2.2.2 with h | h
      · rw [h]
      · rw [h, hsid]
        exact lookup_insertPair_ne _ _ _ _ (fun he2 => hk he2.symm)
    by_cases he : s.enabled
    · simp only [he, Bool.not_true, Bool.false_eq_true, if_false]
      by_cases hd : s.next_run ≤ now
      · simp only [if_pos hd]
        by_cases hg : checkDependencies st s
        · simp only [hg, if_true]
          cases hn : C.next (runPipeline C runP onComplete now recId st s).2.1.cron_expression now with
          | none => exact hrp
          | some nr =>
            show lookup k (saveSchedules _).schedules = _
            rw [saveSchedules_schedules]
            show lookup k (insertPair sid _ _) = _
            rw [lookup_insertPair_ne _ _ _ _ (fun he2 => hk he2.symm)]
            exact hrp
        · simp only [Bool.not_eq_true] at hg
          simp only [hg, Bool.false_eq_true, if_false]
      · simp only [if_neg hd]
    · simp only [Bool.not_eq_true] at he
      simp only [he, Bool.not_false, if_true]

theorem checkDependencies_congr (st st' : SchedState) (s : ScheduleConfig)
    (h : st.completed_executions = st'.completed_executions) :
    checkDependencies st s = checkDependencies st' s := by
  unfold checkDependencies
  rw [h]

theorem runOnceStep_fires (C : Cron) (runP : String → Except String Unit)
    (onComplete : Option (ExecutionRecord → Except String Unit))
    (now : Nat) (recId : String) (st : SchedState) (sid : String) (st0 : SchedState)
    (hlk : lookup sid st.schedules = lookup sid st0.schedules)
    (hc : st.completed_executions = st0.completed_executions) :
    (runOnceStep C runP onComplete now recId st sid).2
      = if firesAt now st0 sid then some sid else none := by
  unfold runOnceStep firesAt
  rw [hlk]
  cases hl : lookup sid st0.schedules with
  | none => rfl
  | some s =>
    have hg : checkDependencies st s = checkDependencies st0 s :=
      checkDependencies_congr st st0 s hc
    by_cases he : s.enabled
    · simp only [he, Bool.not_true, Bool.false_eq_true, if_false, Bool.true_and]
      by_cases hd : s.next_run ≤ now
      · simp only [if_pos hd, decide_eq_true hd, Bool.true_and]
        rw [hg]
        by_cases hgg : checkDependencies st0 s
        · simp only [hgg, if_true]
          cases hn : C.next (runPipeline C runP onComplete now recId st s).2.1.cron_expression now with
          | none => rfl
          | some nr => rfl
        · simp only [Bool.not_eq_true] at hgg
          simp only [hgg, Bool.false_eq_true, if_false]
      · simp only [if_neg hd]
        have : decide (s.next_run ≤ now) = false := decide_eq_false hd
        simp [this]
    · simp only [Bool.not_eq_true] at he
      simp only [he, Bool.not_false, if_true, Bool.false_and, Bool.false_eq_true, if_false]

theorem runOnceAux_trace (C : Cron) (runP : String → Except String Unit)
    (onComplete : Option (ExecutionRecord → Except String Unit))
    (now : Nat) (fresh : Nat → String) (st0 : SchedState) :
    ∀ (ids : List String) (i : Nat) (st : SchedState),
      ids.Nodup →
      (∀ sid ∈ ids, lookup sid st.schedules = lookup sid st0.schedules) →
      (∀ sid ∈ ids, ∀ s : ScheduleConfig, lookup sid st0.schedules = some s → s.id = sid) →
      st.completed_executions = st0.completed_executions →
      (runOnceAux C runP onComplete now fresh ids i st).2 = ids.filter (firesAt now st0) := by
  intro ids
  induction ids with
  | nil => intro i st _ _ _ _; rfl
  | cons sid rest ih =>
    intro i st hnd hlk hid hc
    rw [List.nodup_cons] at hnd
    have hlk0 : lookup sid st.schedules = lookup sid st0.schedules :=
      hlk sid (List.mem_cons_self _ _)
    have hfire := runOnceStep_fires C runP onComplete now (fresh i) st sid st0 hlk0 hc
    have hc1 : (runOnceStep C runP onComplete now (fresh i) st sid).1.completed_executions
        = st0.completed_executions := by
      rw [runOnceStep_completed]; exact hc
    have hlk1 : ∀ k ∈ rest,
        lookup k (runOnceStep C runP onComplete now (fresh i) st sid).1.schedules
          = lookup k st0.schedules := by
      intro k hkmem
      have hkne : k ≠ sid := fun h => hnd.1 (h ▸ hkmem)
      rw [runOnceStep_lookup_ne C runP onComplete now (fresh i) st sid k hkne]
      · exact hlk k (List.mem_cons_of_mem _ hkmem)
      · intro s hs
        exact hid sid (List.mem_cons_self _ _) s (hlk0 ▸ hs)
    have htail := ih (i + 1) (runOnceStep C runP onComplete now (fresh i) st sid).1
      hnd.2 hlk1 (fun k hk => hid k (List.mem_cons_of_mem _ hk)) hc1
    simp only [runOnceAux]
    rw [hfire, htail, List.filter_cons]
    cases hf : firesAt now st0 sid
    · simp
    · simp

theorem runOnce_trace (C : Cron) (runP : String → Except String Unit)
    (onComplete : Option (ExecutionRecord → Except String Unit))
    (now : Nat) (fresh : Nat → String) (st : SchedState) (hwf : WF st) :
    (runOnce C runP onComplete now fresh st).2 = firedIds now st := by
  unfold runOnce firedIds
  apply runOnceAux_trace
  · exact hwf.2
  · intro sid _
    rfl
  · intro sid _ s hs
    exact hwf.1 (sid, s) (lookup_mem hs)
  · rfl

/-- Claim C1 (refuted by the code; evaluation at the failing input):
`_save_schedules` writes `<id>.json` files, but `_load_schedules` reads
only `schedules.json`, which nothing writes — so after adding a schedule
to a fresh directory, a fresh Scheduler over the same directory loads an
empty schedule set even though the saved file is present. -/
theorem saved_schedule_not_loaded_by_fresh_scheduler :
    (addSchedule emptyState demoSchedule).1.schedules = [("s1", demoSchedule)] ∧
    lookup "s1.json" (addSchedule emptyState demoSchedule).1.schedule_dir
      = some (FileContent.single demoSchedule.to_dict) ∧
    (schedulerInit demoCron 2000 "fresh" []
      (addSchedule emptyState demoSchedule).1.schedule_dir).schedules = [] := by
  decide

/-- Claim C2 (refuted by the code; evaluation at the failing input): a
run that fails while `retry_count = 0 < max_retries = 3` is completed
with terminal status FAILED; no record ever becomes RETRYING and no
follow-up attempt exists in the resulting state. -/
theorem failed_run_marked_failed_not_retrying :
    demoSchedule.max_retries = 3 ∧
    ((lookup "r1" (runPipeline demoCron (fun _ => .error "boom") none 2000 "r1" oneState
        demoSchedule).1.running_executions).map
          (fun r => (r.status, r.retry_count, r.end_time)) = some ("FAILED", 0, some 2000)) ∧
    ((runPipeline demoCron (fun _ => .error "boom") none 2000 "r1" oneState
        demoSchedule).1.running_executions.all
          (fun kv => kv.2.status != "RETRYING") = true) ∧
    (runPipeline demoCron (fun _ => .error "boom") none 2000 "r1" oneState demoSchedule).2.2
      = false := by
  decide

/-- Claim C3 counterexample: with a SUCCESS record followed by a newer
FAILED record for the same dependency pipeline, `_check_dependencies`
returns true although the latest terminal record is FAILED — so the gate
is NOT "latest terminal record is SUCCESS". -/
theorem gate_true_despite_latest_failure :
    checkDependencies gateState depSchedule = true ∧
    specDependencyGate gateState.completed_executions depSchedule = false := by
  decide

/-- Claim C3 (amended): `_check_dependencies` returns true iff every
dependency id has SOME completed record with that pipeline id and status
SUCCESS (regardless of later failures); in particular an empty
dependency list satisfies the gate, and a dependency with no completed
record does not. -/
theorem check_dependencies_iff_some_success (st : SchedState) (s : ScheduleConfig) :
    checkDependencies st s = true ↔
      ∀ d ∈ s.dependencies, ∃ r ∈ st.completed_executions,
        r.pipeline_id = d ∧ r.status = "SUCCESS" := by
  unfold checkDependencies
  cases hd : s.dependencies with
  | nil => simp
  | cons a l =>
    simp [List.all_eq_true, List.any_eq_true, List.mem_reverse, Bool.and_eq_true, beq_iff_eq]

/-- Claim C5 (refuted by the code; evaluation at the failing input):
after `add(X); remove(X.id)` the in-memory set no longer contains X, but
the file `<X.id>.json` still exists — neither `remove_schedule` nor
`_save_schedules` ever deletes a file. -/
theorem removed_schedule_file_remains :
    (removeSchedule (addSchedule emptyState demoSchedule).1 "s1").2 = true ∧
    lookup "s1" (removeSchedule (addSchedule emptyState demoSchedule).1 "s1").1.schedules
      = none ∧
    getAllSchedules (removeSchedule (addSchedule emptyState demoSchedule).1 "s1").1 = [] ∧
    lookup "s1.json"
        (removeSchedule (addSchedule emptyState demoSchedule).1 "s1").1.schedule_dir
      = some (FileContent.single demoSchedule.to_dict) := by
  decide

/-- Claim C6 counterexample: `add_pipeline_dependency(s1, s1)` succeeds
and records the self-dependency — there is no cycle check at all, so the
claimed rejection (and the acyclicity invariant) fails already for a
self-loop. -/
theorem self_dependency_accepted :
    okFlag (addPipelineDependency demoCron 2000 oneState "s1" "s1") = some true ∧
    ((okState (addPipelineDependency demoCron 2000 oneState "s1" "s1")).bind
        (fun st => lookup "s1" st.schedules)).map ScheduleConfig.dependencies
      = some ["s1"] := by
  decide

/-- Claim C6 (amended): `add_pipeline_dependency` checks only that both
schedule ids exist and that the dependency is not already present; any
other addition — including `dependency_id = schedule_id` and additions
closing a cycle — succeeds and appends the dependency. -/
theorem add_dependency_appends_without_cycle_check (C : Cron) (now : Nat) (st : SchedState)
    (sid dep : String) (s : ScheduleConfig)
    (hs : lookup sid st.schedules = some s)
    (hdep : (lookup dep st.schedules).isSome = true)
    (hnotin : s.dependencies.contains dep = false) :
    ∃ st', addPipelineDependency C now st sid dep = .ok (st', true) ∧
      lookup sid st'.schedules = some { s with dependencies := s.dependencies ++ [dep] } := by
  unfold addPipelineDependency
  rw [hs]
  obtain ⟨d, hd⟩ := Option.isSome_iff_exists.mp hdep
  rw [hd]
  simp only [hnotin, Bool.false_eq_true, if_false]
  unfold updateSchedule
  rw [hs]
  simp only [applyArgs]
  refine ⟨_, rfl, ?_⟩
  rw [saveSchedules_schedules]
  exact lookup_insertPair_self _ _ _

theorem add_dependency_appends_without_cycle_check_witness :
    ∃ st', addPipelineDependency demoCron 2000 oneState "s1" "s1" = .ok (st', true) ∧
      lookup "s1" st'.schedules
        = some { demoSchedule with dependencies := demoSchedule.dependencies ++ ["s1"] } :=
  add_dependency_appends_without_cycle_check demoCron 2000 oneState "s1" "s1" demoSchedule
    (by decide) (by decide) (by decide)

/-- Claim C7 counterexample: updating a stored schedule with an invalid
cron expression raises, persists nothing and keeps `next_run` — but the
in-memory `cron_expression` is left mutated to the invalid value, so the
operation is NOT atomic ("mutates nothing" fails). -/
theorem update_bad_cron_leaves_mutated_expression :
    ((errState (updateSchedule demoCron 2000 oneState "s1"
        { cron_expression := some "bad" })).bind
          (fun st => lookup "s1" st.schedules)).map
            (fun s => (s.cron_expression, s.next_run)) = some ("bad", 1060) ∧
    demoSchedule.cron_expression = "0 8 * * *" ∧
    (errState (updateSchedule demoCron 2000 oneState "s1"
        { cron_expression := some "bad" })).map SchedState.schedule_dir
      = some oneState.schedule_dir := by
  decide

/-- Claim C7 (amended): `update_schedule` with an invalid cron
expression surfaces a validation error, persists nothing, keeps
`next_run` and the execution history — but leaves the in-memory
`cron_expression` mutated to the invalid value (the `setattr` happens
before `update_next_run` raises).  Construction
(`ScheduleConfig.__init__`) does reject an invalid expression. -/
theorem update_invalid_cron_error_and_partial_state (C : Cron) (now : Nat) (st : SchedState)
    (sid : String) (s : ScheduleConfig) (e : String)
    (hs : lookup sid st.schedules = some s)
    (hbad : ∀ t, C.next e t = none) :
    (∃ st', updateSchedule C now st sid { cron_expression := some e }
        = .error ("invalid cron", st') ∧
      st'.schedule_dir = st.schedule_dir ∧
      st'.completed_executions = st.completed_executions ∧
      lookup sid st'.schedules = some { s with cron_expression := e }) ∧
    (∀ t id pc en dep mr rd,
      ScheduleConfig.init C t id pc e en dep mr rd = .error "invalid cron") := by
  constructor
  · unfold updateSchedule
    rw [hs]
    simp only [applyArgs]
    rw [hbad now]
    exact ⟨_, rfl, rfl, rfl, lookup_insertPair_self _ _ _⟩
  · intro t id pc en dep mr rd
    unfold ScheduleConfig.init
    rw [hbad t]

theorem update_invalid_cron_error_and_partial_state_witness :
    (∃ st', updateSchedule demoCron 2000 oneState "s1" { cron_expression := some "bad" }
        = .error ("invalid cron", st') ∧
      st'.schedule_dir = oneState.schedule_dir ∧
      st'.completed_executions = oneState.completed_executions ∧
      lookup "s1" st'.schedules = some { demoSchedule with cron_expression := "bad" }) ∧
    (∀ t id pc en dep mr rd,
      ScheduleConfig.init demoCron t id pc "bad" en dep mr rd = .error "invalid cron") :=
  update_invalid_cron_error_and_partial_state demoCron 2000 oneState "s1" demoSchedule "bad"
    (by decide) (fun _ => rfl)

/-- Claim C8 counterexample: `_load_history` copies the stored fields
verbatim, so a history file with status SUCCESS and a null `end_time` is
restored into `completed_executions` as a terminal record with
`end_time = none` — the invariant is not enforced on load. -/
theorem history_restores_terminal_record_without_end_time :
    (schedulerInit demoCron 2000 "fresh" [("e9.json", badHistoryDict)] []).completed_executions.map
        (fun r => (r.status, r.end_time)) = [("SUCCESS", none)] ∧
    isTerminalStatus "SUCCESS" = true := by
  decide

/-- Claim C8 (amended): records terminated by `ExecutionRecord.complete`
at an instant `now ≥ start_time` do satisfy the invariant — a terminal
status and `end_time = now ≥ start_time`; `_load_history`, however,
restores every stored field verbatim without enforcing it. -/
theorem complete_gives_terminal_end_time (r : ExecutionRecord) (now : Nat) (success : Bool)
    (msg : Option String) (h : r.start_time ≤ now) :
    (ExecutionRecord.complete r now success msg).end_time = some now ∧
    (ExecutionRecord.complete r now success msg).start_time ≤ now ∧
    isTerminalStatus (ExecutionRecord.complete r now success msg).status = true ∧
    (∀ d : ExecDict, (loadHistoryRecord d).end_time = d.end_time ∧
      (loadHistoryRecord d).status = d.status ∧
      (loadHistoryRecord d).start_time = d.start_time) := by
  refine ⟨rfl, h, ?_, fun d => ⟨rfl, rfl, rfl⟩⟩
  cases success <;> rfl

theorem complete_gives_terminal_end_time_witness :
    ((ExecutionRecord.init "x" "y" "z" 100).complete 150 false (some "m")).end_time
        = some 150 ∧
    ((ExecutionRecord.init "x" "y" "z" 100).complete 150 false (some "m")).start_time ≤ 150 ∧
    isTerminalStatus ((ExecutionRecord.init "x" "y" "z" 100).complete 150 false
        (some "m")).status = true ∧
    (∀ d : ExecDict, (loadHistoryRecord d).end_time = d.end_time ∧
      (loadHistoryRecord d).status = d.status ∧
      (loadHistoryRecord d).start_time = d.start_time) :=
  complete_gives_terminal_end_time (ExecutionRecord.init "x" "y" "z" 100) 150 false
    (some "m") (by decide)

/-- Claim C10 counterexample: with the map holding `b` before `a` (both
due), one `run_once` dispatches `b` first — the trace is the map's
insertion order, not ascending id order. -/
theorem run_once_trace_not_id_sorted :
    (runOnce demoCron (fun _ => .ok ()) none 200 (fun _ => "r") orderState).2 = ["b", "a"] ∧
    strLt "a" "b" = true ∧
    idOrderedB ["b", "a"] = false := by
  decide

/-- Claim C10 (amended): within one `run_once`, schedules are processed
in the insertion order of the schedules map (the snapshot order of
`list(self.schedules.items())`): the dispatch trace is exactly the due
schedules filtered from that snapshot, hence a subsequence of it — it is
not sorted by id. -/
theorem run_once_processes_in_insertion_order (C : Cron) (runP : String → Except String Unit)
    (onComplete : Option (ExecutionRecord → Except String Unit))
    (now : Nat) (fresh : Nat → String) (st : SchedState) (hwf : WF st) :
    (runOnce C runP onComplete now fresh st).2 = firedIds now st ∧
    (runOnce C runP onComplete now fresh st).2.Sublist (st.schedules.map Prod.fst) := by
  have h := runOnce_trace C runP onComplete now fresh st hwf
  refine ⟨h, ?_⟩
  rw [h]
  exact List.filter_sublist _

theorem run_once_processes_in_insertion_order_witness :
    (runOnce demoCron (fun _ => .ok ()) none 200 (fun _ => "r") orderState).2
        = firedIds 200 orderState ∧
    (runOnce demoCron (fun _ => .ok ()) none 200 (fun _ => "r") orderState).2.Sublist
        (orderState.schedules.map Prod.fst) :=
  run_once_processes_in_insertion_order demoCron (fun _ => .ok ()) none 200 (fun _ => "r")
    orderState ⟨by decide, by decide⟩

/-- Claim C9: `_run_pipeline` never raises — for ANY callback and any
pipeline outcome it returns a plain value, and when the pipeline run
raised, the registered execution record is FAILED with the error message
and an end time; and `run_once` catches every per-schedule exception, so
the set of schedules dispatched in a tick is the same whatever the
pipeline runs or callbacks do — one failing schedule cannot prevent the
rest from being processed. -/
theorem pipeline_failure_contained (C : Cron)
    (runP runP2 : String → Except String Unit)
    (onComplete onComplete2 : Option (ExecutionRecord → Except String Unit))
    (now : Nat) (recId : String) (st : SchedState) (schedule : ScheduleConfig) (e : String)
    (fresh : Nat → String) (stt : SchedState)
    (herr : runP schedule.pipeline_config = .error e) (hwf : WF stt) :
    (∃ r, lookup recId
        (runPipeline C runP onComplete now recId st schedule).1.running_executions
          = some r ∧
      r.status = "FAILED" ∧ r.error_message = some ("error: " ++ e) ∧
      r.end_time = some now) ∧
    (runOnce C runP onComplete now fresh stt).2
      = (runOnce C runP2 onComplete2 now fresh stt).2 := by
  constructor
  · have h := runRecord_failed runP now recId schedule e herr
    exact ⟨(runRecord runP now recId schedule).1,
      runPipelineBody_running C runP onComplete now recId st schedule,
      h.1, h.2.1, h.2.2.1⟩
  · rw [runOnce_trace C runP onComplete now fresh stt hwf,
        runOnce_trace C runP2 onComplete2 now fresh stt hwf]

theorem pipeline_failure_contained_witness :
    (∃ r, lookup "r1"
        (runPipeline demoCron (fun _ => .error "boom") none 2000 "r1" oneState
          demoSchedule).1.running_executions = some r ∧
      r.status = "FAILED" ∧ r.error_message = some ("error: " ++ "boom") ∧
      r.end_time = some 2000) ∧
    (runOnce demoCron (fun _ => .error "boom") none 2000 (fun _ => "r") orderState).2
      = (runOnce demoCron (fun _ => .ok ()) none 2000 (fun _ => "r") orderState).2 :=
  pipeline_failure_contained demoCron (fun _ => .error "boom") (fun _ => .ok ()) none none
    2000 "r1" oneState demoSchedule "boom" (fun _ => "r") orderState rfl
    ⟨by decide, by decide⟩

/-- Claim C4: one `run_once` iteration at instant `now`, for the
schedule stored under `sid` in a well-formed state: a disabled schedule
is skipped (state unchanged, nothing dispatched); a schedule with
`next_run > now` is skipped; a due schedule whose dependency gate fails
is skipped with `next_run` unchanged (the whole state unchanged); and a
due schedule whose gate holds is dispatched, has `next_run` advanced to
`croniter.get_next(now)` — strictly later than `now` — and the updated
schedule is persisted to `<sid>.json`, for EVERY pipeline outcome
`runP`, failing ones included. -/
theorem run_once_tick_semantics (C : Cron) (runP : String → Except String Unit)
    (onComplete : Option (ExecutionRecord → Except String Unit))
    (now : Nat) (recId : String) (st : SchedState) (sid : String) (s : ScheduleConfig)
    (hs : lookup sid st.schedules = some s) (hwf : WF st) :
    (s.enabled = false → runOnceStep C runP onComplete now recId st sid = (st, none)) ∧
    (now < s.next_run → runOnceStep C runP onComplete now recId st sid = (st, none)) ∧
    (s.enabled = true → s.next_run ≤ now → checkDependencies st s = false →
      runOnceStep C runP onComplete now recId st sid = (st, none)) ∧
    (∀ u, s.enabled = true → s.next_run ≤ now → checkDependencies st s = true →
      C.next s.cron_expression now = some u → now < u →
      ∃ s', lookup sid (runOnceStep C runP onComplete now recId st sid).1.schedules
          = some s' ∧
        s'.next_run = u ∧ now < s'.next_run ∧
        lookup (sid ++ ".json")
            (runOnceStep C runP onComplete now recId st sid).1.schedule_dir
          = some (FileContent.single s'.to_dict) ∧
        (runOnceStep C runP onComplete now recId st sid).2 = some sid) := by
  have hsid : s.id = sid := hwf.1 (sid, s) (lookup_mem hs)
  refine ⟨?_, ?_, ?_, ?_⟩
  · intro he
    unfold runOnceStep
    rw [hs]
    simp [he]
  · intro hlt
    unfold runOnceStep
    rw [hs]
    by_cases he : s.enabled = true
    · simp only [he, Bool.not_true, Bool.false_eq_true, if_false,
        if_neg (Nat.not_le.mpr hlt)]
    · have he2 : s.enabled = false := by revert he; cases s.enabled <;> simp
      simp only [he2, Bool.not_false, if_true]
  · intro he hd hg
    unfold runOnceStep
    rw [hs]
    simp only [he, Bool.not_true, Bool.false_eq_true, if_false, if_pos hd, hg, if_true]
  · intro u he hd hg hn hu
    have hspec := runPipeline_spec C runP onComplete now recId st s
    have hstep : runOnceStep C runP onComplete now recId st sid
        = (saveSchedules { (runPipeline C runP onComplete now recId st s).1 with
            schedules := insertPair sid
              { (runPipeline C runP onComplete now recId st s).2.1 with next_run := u }
              (runPipeline C runP onComplete now recId st s).1.schedules }, some sid) := by
      unfold runOnceStep
      rw [hs]
      simp only [he, Bool.not_true, Bool.false_eq_true, if_false, if_pos hd, hg, if_true]
      rw [hspec.2.2.1, hn]
    have hcollapse : insertPair sid
        { (runPipeline C runP onComplete now recId st s).2.1 with next_run := u }
        (runPipeline C runP onComplete now recId st s).1.schedules
          = insertPair sid
            { (runPipeline C runP onComplete now recId st s).2.1 with next_run := u }
            st.schedules := by
      rcases hspec.2.2.2 with h | h
      · rw [h]
      · rw [h, hsid, insertPair_insertPair]
    refine ⟨{ (runPipeline C runP onComplete now recId st s).2.1 with next_run := u },
      ?_, rfl, hu, ?_, by rw [hstep]⟩
    · rw [hstep, saveSchedules_schedules]
      show lookup sid (insertPair sid _ _) = _
      exact lookup_insertPair_self _ _ _
    · rw [hstep]
      apply saveSchedules_file
      · intro p hp
        have hp2 : p ∈ insertPair sid
            { (runPipeline C runP onComplete now recId st s).2.1 with next_run := u }
            st.schedules := by
          rw [← hcollapse]
          exact hp
        rcases mem_insertPair hp2 with h | h
        · rw [h]
          show (runPipeline C runP onComplete now recId st s).2.1.id = sid
          rw [hspec.2.1, hsid]
        · exact hwf.1 p h
      · show (((insertPair sid _ (runPipeline C runP onComplete now recId st s).1.schedules
            : List (String × ScheduleConfig))).map Prod.fst).Nodup
        rw [hcollapse]
        exact keys_insertPair_nodup _ _ _ hwf.2
      · show lookup sid (insertPair sid _ _) = _
        exact lookup_insertPair_self _ _ _

theorem run_once_tick_semantics_witness :
    ∃ s', lookup "s1"
        (runOnceStep demoCron (fun _ => .error "x") none 2000 "r1" oneState "s1").1.schedules
          = some s' ∧
      s'.next_run = 2060 ∧ 2000 < s'.next_run ∧
      lookup ("s1" ++ ".json")
          (runOnceStep demoCron (fun _ => .error "x") none 2000 "r1" oneState
            "s1").1.schedule_dir
        = some (FileContent.single s'.to_dict) ∧
      (runOnceStep demoCron (fun _ => .error "x") none 2000 "r1" oneState "s1").2
        = some "s1" :=
  (run_once_tick_semantics demoCron (fun _ => .error "x") none 2000 "r1" oneState "s1"
    demoSchedule (by decide) ⟨by decide, by decide⟩).2.2.2 2060 (by decide) (by decide)
    (by decide) (by decide) (by decide)

end Dteg
